import Mathlib

/-!
Verification of the matrix storage layer of this repository
(src/external/eigen/Eigen/src/Core/MatrixStorage.h).

The file shallowly embeds the family of ei_matrix_storage class template
specializations.  C++ int values are modelled as Int; heap pointers are
modelled as Option Buffer where none stands for a null pointer and a
Buffer is a handle produced by the allocation collaborator.  Element
contents of inline arrays are modelled as lists over an arbitrary element
type.  The allocation collaborator (ei_conditional_aligned_new and
ei_conditional_aligned_delete) is not part of the sources, so it is
modelled from the spec.
-/

set_option autoImplicit false

/-- A heap buffer handle: an identity distinguishing the allocation, the
element count it was allocated with, and whether the aligned allocation
discipline was used to acquire it. -/
structure Buffer where
  id : Nat
  count : Int
  aligned : Bool
deriving DecidableEq

/-- Modelled from the spec: the state of the allocation collaborator
(spec section 6), which is not under src/.  It is modelled as a counter
handing out fresh buffer identities, so that a reallocation always yields
a pointer different from every previously issued one. -/
structure AllocState where
  nextId : Nat
deriving DecidableEq

/-- Modelled from the spec: ei_conditional_aligned_new, the allocation
primitive of the collaborator (not under src/).  Every request, including
one for zero elements, returns a fresh non-null buffer handle recording
the requested element count and the discipline flag; the spec treats
allocation failure as fatal, so the primitive never returns null. -/
def ei_conditional_aligned_new (al : Bool) (size : Int) (a : AllocState) :
    Buffer × AllocState :=
  (⟨a.nextId, size, al⟩, ⟨a.nextId + 1⟩)

/-- A record of one call to the deallocation primitive: the pointer
passed (none for a null pointer), the element count passed, and the
discipline flag. -/
structure DeleteCall where
  ptr : Option Buffer
  count : Int
  aligned : Bool
deriving DecidableEq

/-- Modelled from the spec: ei_conditional_aligned_delete, the
deallocation primitive of the collaborator (not under src/).  The model
records the arguments of the call so that theorems can speak about what
the storage layer passes to it. -/
def ei_conditional_aligned_delete (al : Bool) (p : Option Buffer) (n : Int) :
    DeleteCall :=
  ⟨p, n, al⟩

/-- ei_matrix_storage of T, Dynamic, Dynamic, Dynamic (MatrixStorage.h
lines 176-207): the purely dynamic matrix, a heap buffer pointer plus two
dynamic dimension fields. -/
structure HeapDynDyn where
  m_data : Option Buffer
  m_rows : Int
  m_cols : Int
deriving DecidableEq

/-- Default constructor (line 182): null pointer, zero dimensions, the
allocator untouched. -/
def HeapDynDyn.mkDefault (a : AllocState) : HeapDynDyn × AllocState :=
  (⟨none, 0, 0⟩, a)

/-- Skip-check constructor (lines 183-184), taking the
ei_constructor_without_unaligned_array_assert marker: null pointer, zero
dimensions, the allocator untouched. -/
def HeapDynDyn.mkNoAssert (a : AllocState) : HeapDynDyn × AllocState :=
  (⟨none, 0, 0⟩, a)

/-- Three-argument constructor (lines 185-186): allocates size elements
unconditionally and stores the requested dimensions.  The flag al stands
for the compile-time value of the C++ expression
(_Options and DontAlign) == 0, the allocation discipline. -/
def HeapDynDyn.mk3 (al : Bool) (size rows cols : Int) (a : AllocState) :
    HeapDynDyn × AllocState :=
  let p := ei_conditional_aligned_new al size a
  (⟨some p.1, rows, cols⟩, p.2)

/-- Destructor (line 187): a single deallocation of m_data passing
m_rows * m_cols as the element count. -/
def HeapDynDyn.destruct (al : Bool) (s : HeapDynDyn) : List DeleteCall :=
  [ei_conditional_aligned_delete al s.m_data (s.m_rows * s.m_cols)]

/-- swap (lines 188-189): exchanges the pointer and both dimension
fields between the two instances. -/
def HeapDynDyn.swap (s t : HeapDynDyn) : HeapDynDyn × HeapDynDyn :=
  (⟨t.m_data, t.m_rows, t.m_cols⟩, ⟨s.m_data, s.m_rows, s.m_cols⟩)

/-- rows() (line 190). -/
def HeapDynDyn.rows (s : HeapDynDyn) : Int := s.m_rows

/-- cols() (line 191). -/
def HeapDynDyn.cols (s : HeapDynDyn) : Int := s.m_cols

/-- data() (lines 205-206). -/
def HeapDynDyn.data (s : HeapDynDyn) : Option Buffer := s.m_data

/-- resize (lines 192-204): reallocates exactly when size differs from
m_rows * m_cols; the old buffer is then released (passing the old
m_rows * m_cols) and, when size is nonzero, a fresh buffer of size
elements is acquired, otherwise the pointer becomes null; the dimension
fields are always updated.  Returns the new state, the allocator state,
and the list of deallocation calls made. -/
def HeapDynDyn.resize (al : Bool) (s : HeapDynDyn) (a : AllocState)
    (size rows cols : Int) : HeapDynDyn × AllocState × List DeleteCall :=
  if size ≠ s.m_rows * s.m_cols then
    let d := ei_conditional_aligned_delete al s.m_data (s.m_rows * s.m_cols)
    if size ≠ 0 then
      let p := ei_conditional_aligned_new al size a
      (⟨some p.1, rows, cols⟩, p.2, [d])
    else
      (⟨none, rows, cols⟩, a, [d])
  else
    (⟨s.m_data, rows, cols⟩, a, [])

/-- States of the purely dynamic storage reachable by construction,
resize and swap under the calling discipline of the enclosing matrix
type: every three-argument construction and every resize passes an
element count equal to the product of the requested dimensions.  When
strict is true, the three-argument constructor is additionally never
invoked with a zero element count. -/
inductive HeapDynDyn.Reach (al : Bool) (strict : Bool) : HeapDynDyn → Prop
  | mkDefault (a : AllocState) :
      Reach al strict (HeapDynDyn.mkDefault a).1
  | mkNoAssert (a : AllocState) :
      Reach al strict (HeapDynDyn.mkNoAssert a).1
  | mk3 (size rows cols : Int) (a : AllocState) (h : size = rows * cols)
      (h0 : strict = true → size ≠ 0) :
      Reach al strict (HeapDynDyn.mk3 al size rows cols a).1
  | resize (s : HeapDynDyn) (a : AllocState) (size rows cols : Int)
      (hs : Reach al strict s) (h : size = rows * cols) :
      Reach al strict (HeapDynDyn.resize al s a size rows cols).1
  | swapL (s t : HeapDynDyn) (hs : Reach al strict s)
      (ht : Reach al strict t) :
      Reach al strict (HeapDynDyn.swap s t).1
  | swapR (s t : HeapDynDyn) (hs : Reach al strict s)
      (ht : Reach al strict t) :
      Reach al strict (HeapDynDyn.swap s t).2

/-- The run-time invariant of the purely dynamic storage under the
calling discipline: the owned buffer, when present, was allocated with
exactly m_rows * m_cols elements and with the variant's discipline; a
null pointer forces a zero dimension product; and under the strict
discipline a zero dimension product forces a null pointer. -/
lemma HeapDynDyn.reach_inv_dyn_dyn {al strict : Bool} {s : HeapDynDyn}
    (h : HeapDynDyn.Reach al strict s) :
    (∀ b, s.m_data = some b → b.count = s.m_rows * s.m_cols ∧ b.aligned = al)
      ∧ (s.m_data = none → s.m_rows * s.m_cols = 0)
      ∧ (strict = true → s.m_rows * s.m_cols = 0 → s.m_data = none) := by
  induction h with
  | mkDefault a => simp [HeapDynDyn.mkDefault]
  | mkNoAssert a => simp [HeapDynDyn.mkNoAssert]
  | mk3 size rows cols a h h0 =>
      subst h
      refine ⟨?_, ?_, ?_⟩
      · rintro b hb
        simp only [HeapDynDyn.mk3, ei_conditional_aligned_new,
          Option.some.injEq] at hb
        subst hb
        exact ⟨rfl, rfl⟩
      · intro hnone
        simp [HeapDynDyn.mk3] at hnone
      · intro hst hzero
        exact absurd hzero (h0 hst)
  | resize s a size rows cols hs h ih =>
      obtain ⟨ih1, ih2, ih3⟩ := ih
      subst h
      rw [HeapDynDyn.resize]
      split_ifs with hc hz
      · refine ⟨?_, ?_, ?_⟩
        · rintro b hb
          simp only [ei_conditional_aligned_new, Option.some.injEq] at hb
          subst hb
          exact ⟨rfl, rfl⟩
        · intro hnone
          simp at hnone
        · intro _ hzero
          exact absurd hzero hz
      · push_neg at hz
        refine ⟨?_, ?_, ?_⟩
        · rintro b hb
          simp at hb
        · intro _
          exact hz
        · intro _ _
          rfl
      · push_neg at hc
        refine ⟨?_, ?_, ?_⟩
        · rintro b hb
          have hb2 : s.m_data = some b := hb
          rcases ih1 b hb2 with ⟨hcount, hal⟩
          refine ⟨?_, hal⟩
          show b.count = rows * cols
          rw [hcount]
          exact hc.symm
        · intro hnone
          have hn2 : s.m_data = none := hnone
          show rows * cols = 0
          rw [hc]
          exact ih2 hn2
        · intro hst hzero
          have hz2 : rows * cols = 0 := hzero
          exact ih3 hst (hc ▸ hz2)
  | swapL s t hs ht ihs iht =>
      simpa [HeapDynDyn.swap] using iht
  | swapR s t hs ht ihs iht =>
      simpa [HeapDynDyn.swap] using ihs

/-- ei_matrix_storage of T, Dynamic, _Rows, Dynamic (MatrixStorage.h
lines 210-236): dynamic width and fixed height, a heap buffer pointer
plus the dynamic column count.  The fixed row count _Rows is passed to
the operations that read it as an explicit argument R. -/
structure HeapFixedRows where
  m_data : Option Buffer
  m_cols : Int
deriving DecidableEq

/-- Default constructor (line 215): null pointer, zero columns, the
allocator untouched. -/
def HeapFixedRows.mkDefault (a : AllocState) : HeapFixedRows × AllocState :=
  (⟨none, 0⟩, a)

/-- Skip-check constructor (line 216): null pointer, zero columns, the
allocator untouched. -/
def HeapFixedRows.mkNoAssert (a : AllocState) : HeapFixedRows × AllocState :=
  (⟨none, 0⟩, a)

/-- Three-argument constructor (line 217): allocates size elements
unconditionally, ignores the rows argument, stores the column count. -/
def HeapFixedRows.mk3 (al : Bool) (size _rows cols : Int) (a : AllocState) :
    HeapFixedRows × AllocState :=
  let p := ei_conditional_aligned_new al size a
  (⟨some p.1, cols⟩, p.2)

/-- Destructor (line 218): a single deallocation of m_data passing
_Rows * m_cols as the element count. -/
def HeapFixedRows.destruct (al : Bool) (R : Int) (s : HeapFixedRows) :
    List DeleteCall :=
  [ei_conditional_aligned_delete al s.m_data (R * s.m_cols)]

/-- swap (line 219): exchanges the pointer and the column field. -/
def HeapFixedRows.swap (s t : HeapFixedRows) : HeapFixedRows × HeapFixedRows :=
  (⟨t.m_data, t.m_cols⟩, ⟨s.m_data, s.m_cols⟩)

/-- rows() (line 220): the compile-time constant. -/
def HeapFixedRows.rows (R : Int) (_s : HeapFixedRows) : Int := R

/-- cols() (line 221). -/
def HeapFixedRows.cols (s : HeapFixedRows) : Int := s.m_cols

/-- data() (lines 234-235). -/
def HeapFixedRows.data (s : HeapFixedRows) : Option Buffer := s.m_data

/-- resize (lines 222-233): reallocates exactly when size differs from
_Rows * m_cols; the rows argument is ignored; the column field is always
updated. -/
def HeapFixedRows.resize (al : Bool) (R : Int) (s : HeapFixedRows)
    (a : AllocState) (size _rows cols : Int) :
    HeapFixedRows × AllocState × List DeleteCall :=
  if size ≠ R * s.m_cols then
    let d := ei_conditional_aligned_delete al s.m_data (R * s.m_cols)
    if size ≠ 0 then
      let p := ei_conditional_aligned_new al size a
      (⟨some p.1, cols⟩, p.2, [d])
    else
      (⟨none, cols⟩, a, [d])
  else
    (⟨s.m_data, cols⟩, a, [])

/-- States of the fixed-height heap storage reachable under the calling
discipline of the enclosing matrix type: every three-argument
construction and every resize passes an element count equal to
_Rows * requestedCols.  When strict is true, three-argument construction
is additionally never invoked with a zero element count. -/
inductive HeapFixedRows.Reach (al : Bool) (strict : Bool) (R : Int) :
    HeapFixedRows → Prop
  | mkDefault (a : AllocState) :
      Reach al strict R (HeapFixedRows.mkDefault a).1
  | mkNoAssert (a : AllocState) :
      Reach al strict R (HeapFixedRows.mkNoAssert a).1
  | mk3 (size rows cols : Int) (a : AllocState) (h : size = R * cols)
      (h0 : strict = true → size ≠ 0) :
      Reach al strict R (HeapFixedRows.mk3 al size rows cols a).1
  | resize (s : HeapFixedRows) (a : AllocState) (size rows cols : Int)
      (hs : Reach al strict R s) (h : size = R * cols) :
      Reach al strict R (HeapFixedRows.resize al R s a size rows cols).1
  | swapL (s t : HeapFixedRows) (hs : Reach al strict R s)
      (ht : Reach al strict R t) :
      Reach al strict R (HeapFixedRows.swap s t).1
  | swapR (s t : HeapFixedRows) (hs : Reach al strict R s)
      (ht : Reach al strict R t) :
      Reach al strict R (HeapFixedRows.swap s t).2

/-- The run-time invariant of the fixed-height heap storage under the
calling discipline, mirroring the purely dynamic one with the dimension
product _Rows * m_cols. -/
lemma HeapFixedRows.reach_inv_fixed_rows {al strict : Bool} {R : Int}
    {s : HeapFixedRows} (h : HeapFixedRows.Reach al strict R s) :
    (∀ b, s.m_data = some b → b.count = R * s.m_cols ∧ b.aligned = al)
      ∧ (s.m_data = none → R * s.m_cols = 0)
      ∧ (strict = true → R * s.m_cols = 0 → s.m_data = none) := by
  induction h with
  | mkDefault a => simp [HeapFixedRows.mkDefault]
  | mkNoAssert a => simp [HeapFixedRows.mkNoAssert]
  | mk3 size rows cols a h h0 =>
      subst h
      refine ⟨?_, ?_, ?_⟩
      · rintro b hb
        simp only [HeapFixedRows.mk3, ei_conditional_aligned_new,
          Option.some.injEq] at hb
        subst hb
        exact ⟨rfl, rfl⟩
      · intro hnone
        simp [HeapFixedRows.mk3] at hnone
      · intro hst hzero
        exact absurd hzero (h0 hst)
  | resize s a size rows cols hs h ih =>
      obtain ⟨ih1, ih2, ih3⟩ := ih
      subst h
      rw [HeapFixedRows.resize]
      split_ifs with hc hz
      · refine ⟨?_, ?_, ?_⟩
        · rintro b hb
          simp only [ei_conditional_aligned_new, Option.some.injEq] at hb
          subst hb
          exact ⟨rfl, rfl⟩
        · intro hnone
          simp at hnone
        · intro _ hzero
          exact absurd hzero hz
      · push_neg at hz
        refine ⟨?_, ?_, ?_⟩
        · rintro b hb
          simp at hb
        · intro _
          exact hz
        · intro _ _
          rfl
      · push_neg at hc
        refine ⟨?_, ?_, ?_⟩
        · rintro b hb
          have hb2 : s.m_data = some b := hb
          rcases ih1 b hb2 with ⟨hcount, hal⟩
          refine ⟨?_, hal⟩
          show b.count = R * cols
          rw [hcount]
          exact hc.symm
        · intro hnone
          have hn2 : s.m_data = none := hnone
          show R * cols = 0
          rw [hc]
          exact ih2 hn2
        · intro hst hzero
          have hz2 : R * cols = 0 := hzero
          exact ih3 hst (hc ▸ hz2)
  | swapL s t hs ht ihs iht =>
      simpa [HeapFixedRows.swap] using iht
  | swapR s t hs ht ihs iht =>
      simpa [HeapFixedRows.swap] using ihs

/-- ei_matrix_storage of T, Dynamic, Dynamic, _Cols (MatrixStorage.h
lines 239-265): dynamic height and fixed width, a heap buffer pointer
plus the dynamic row count.  The fixed column count _Cols is passed to
the operations that read it as an explicit argument C. -/
structure HeapFixedCols where
  m_data : Option Buffer
  m_rows : Int
deriving DecidableEq

/-- Default constructor (line 244): null pointer, zero rows, the
allocator untouched. -/
def HeapFixedCols.mkDefault (a : AllocState) : HeapFixedCols × AllocState :=
  (⟨none, 0⟩, a)

/-- Skip-check constructor (line 245): null pointer, zero rows, the
allocator untouched. -/
def HeapFixedCols.mkNoAssert (a : AllocState) : HeapFixedCols × AllocState :=
  (⟨none, 0⟩, a)

/-- Three-argument constructor (line 246): allocates size elements
unconditionally, stores the row count, ignores the cols argument. -/
def HeapFixedCols.mk3 (al : Bool) (size rows _cols : Int) (a : AllocState) :
    HeapFixedCols × AllocState :=
  let p := ei_conditional_aligned_new al size a
  (⟨some p.1, rows⟩, p.2)

/-- Destructor (line 247): a single deallocation of m_data passing
_Cols * m_rows as the element count. -/
def HeapFixedCols.destruct (al : Bool) (C : Int) (s : HeapFixedCols) :
    List DeleteCall :=
  [ei_conditional_aligned_delete al s.m_data (C * s.m_rows)]

/-- swap (line 248): exchanges the pointer and the row field. -/
def HeapFixedCols.swap (s t : HeapFixedCols) : HeapFixedCols × HeapFixedCols :=
  (⟨t.m_data, t.m_rows⟩, ⟨s.m_data, s.m_rows⟩)

/-- rows() (line 249). -/
def HeapFixedCols.rows (s : HeapFixedCols) : Int := s.m_rows

/-- cols() (line 250): the compile-time constant. -/
def HeapFixedCols.cols (C : Int) (_s : HeapFixedCols) : Int := C

/-- data() (lines 263-264). -/
def HeapFixedCols.data (s : HeapFixedCols) : Option Buffer := s.m_data

/-- resize (lines 251-262): reallocates exactly when size differs from
m_rows * _Cols; the old buffer is then released passing _Cols * m_rows;
the cols argument is ignored; the row field is always updated. -/
def HeapFixedCols.resize (al : Bool) (C : Int) (s : HeapFixedCols)
    (a : AllocState) (size rows _cols : Int) :
    HeapFixedCols × AllocState × List DeleteCall :=
  if size ≠ s.m_rows * C then
    let d := ei_conditional_aligned_delete al s.m_data (C * s.m_rows)
    if size ≠ 0 then
      let p := ei_conditional_aligned_new al size a
      (⟨some p.1, rows⟩, p.2, [d])
    else
      (⟨none, rows⟩, a, [d])
  else
    (⟨s.m_data, rows⟩, a, [])

/-- States of the fixed-width heap storage reachable under the calling
discipline of the enclosing matrix type: every three-argument
construction and every resize passes an element count equal to
requestedRows * _Cols.  When strict is true, three-argument construction
is additionally never invoked with a zero element count. -/
inductive HeapFixedCols.Reach (al : Bool) (strict : Bool) (C : Int) :
    HeapFixedCols → Prop
  | mkDefault (a : AllocState) :
      Reach al strict C (HeapFixedCols.mkDefault a).1
  | mkNoAssert (a : AllocState) :
      Reach al strict C (HeapFixedCols.mkNoAssert a).1
  | mk3 (size rows cols : Int) (a : AllocState) (h : size = rows * C)
      (h0 : strict = true → size ≠ 0) :
      Reach al strict C (HeapFixedCols.mk3 al size rows cols a).1
  | resize (s : HeapFixedCols) (a : AllocState) (size rows cols : Int)
      (hs : Reach al strict C s) (h : size = rows * C) :
      Reach al strict C (HeapFixedCols.resize al C s a size rows cols).1
  | swapL (s t : HeapFixedCols) (hs : Reach al strict C s)
      (ht : Reach al strict C t) :
      Reach al strict C (HeapFixedCols.swap s t).1
  | swapR (s t : HeapFixedCols) (hs : Reach al strict C s)
      (ht : Reach al strict C t) :
      Reach al strict C (HeapFixedCols.swap s t).2

/-- The run-time invariant of the fixed-width heap storage under the
calling discipline, mirroring the purely dynamic one with the dimension
product m_rows * _Cols. -/
lemma HeapFixedCols.reach_inv_fixed_cols {al strict : Bool} {C : Int}
    {s : HeapFixedCols} (h : HeapFixedCols.Reach al strict C s) :
    (∀ b, s.m_data = some b → b.count = s.m_rows * C ∧ b.aligned = al)
      ∧ (s.m_data = none → s.m_rows * C = 0)
      ∧ (strict = true → s.m_rows * C = 0 → s.m_data = none) := by
  induction h with
  | mkDefault a => simp [HeapFixedCols.mkDefault]
  | mkNoAssert a => simp [HeapFixedCols.mkNoAssert]
  | mk3 size rows cols a h h0 =>
      subst h
      refine ⟨?_, ?_, ?_⟩
      · rintro b hb
        simp only [HeapFixedCols.mk3, ei_conditional_aligned_new,
          Option.some.injEq] at hb
        subst hb
        exact ⟨rfl, rfl⟩
      · intro hnone
        simp [HeapFixedCols.mk3] at hnone
      · intro hst hzero
        exact absurd hzero (h0 hst)
  | resize s a size rows cols hs h ih =>
      obtain ⟨ih1, ih2, ih3⟩ := ih
      subst h
      rw [HeapFixedCols.resize]
      split_ifs with hc hz
      · refine ⟨?_, ?_, ?_⟩
        · rintro b hb
          simp only [ei_conditional_aligned_new, Option.some.injEq] at hb
          subst hb
          exact ⟨rfl, rfl⟩
        · intro hnone
          simp at hnone
        · intro _ hzero
          exact absurd hzero hz
      · push_neg at hz
        refine ⟨?_, ?_, ?_⟩
        · rintro b hb
          simp at hb
        · intro _
          exact hz
        · intro _ _
          rfl
      · push_neg at hc
        refine ⟨?_, ?_, ?_⟩
        · rintro b hb
          have hb2 : s.m_data = some b := hb
          rcases ih1 b hb2 with ⟨hcount, hal⟩
          refine ⟨?_, hal⟩
          show b.count = rows * C
          rw [hcount]
          exact hc.symm
        · intro hnone
          have hn2 : s.m_data = none := hnone
          show rows * C = 0
          rw [hc]
          exact ih2 hn2
        · intro hst hzero
          have hz2 : rows * C = 0 := hzero
          exact ih3 hst (hc ▸ hz2)
  | swapL s t hs ht ihs iht =>
      simpa [HeapFixedCols.swap] using iht
  | swapR s t hs ht ihs iht =>
      simpa [HeapFixedCols.swap] using ihs

/-- ei_matrix_storage of T, Size, _Rows, _Cols (MatrixStorage.h lines
78-92): the purely fixed-size matrix, an embedded ei_matrix_array and no
dimension fields.  The inline array is modelled by its element contents;
its compile-time capacity Size is the length of the list with which the
object was constructed (the C++ constructors leave the contents
indeterminate, so the constructors take them as a parameter). -/
structure FixedStorage (α : Type) where
  m_data : List α
deriving DecidableEq

/-- Default constructor (line 82). -/
def FixedStorage.mkDefault {α : Type} (arr : List α) : FixedStorage α := ⟨arr⟩

/-- Skip-check constructor (lines 83-84). -/
def FixedStorage.mkNoAssert {α : Type} (arr : List α) : FixedStorage α := ⟨arr⟩

/-- Three-argument constructor (line 85): ignores all three arguments. -/
def FixedStorage.mk3 {α : Type} (arr : List α) (_size _rows _cols : Int) :
    FixedStorage α := ⟨arr⟩

/-- swap (line 86): exchanges the embedded array contents. -/
def FixedStorage.swap {α : Type} (s t : FixedStorage α) :
    FixedStorage α × FixedStorage α :=
  (⟨t.m_data⟩, ⟨s.m_data⟩)

/-- rows() (line 87): the compile-time constant _Rows. -/
def FixedStorage.rows {α : Type} (R : Int) (_s : FixedStorage α) : Int := R

/-- cols() (line 88): the compile-time constant _Cols. -/
def FixedStorage.cols {α : Type} (C : Int) (_s : FixedStorage α) : Int := C

/-- resize (line 89): empty body, the state is unchanged. -/
def FixedStorage.resize {α : Type} (s : FixedStorage α)
    (_size _rows _cols : Int) : FixedStorage α := s

/-- data() (lines 90-91): the address of the embedded array, never null
(modelled as some of the contents). -/
def FixedStorage.data {α : Type} (s : FixedStorage α) : Option (List α) :=
  some s.m_data

/-- ei_matrix_storage of T, 0, _Rows, _Cols (MatrixStorage.h lines
95-107): the null matrix, no buffer and no fields. -/
structure NullStorage where
deriving DecidableEq

/-- Default constructor (line 98). -/
def NullStorage.mkDefault : NullStorage := ⟨⟩

/-- Skip-check constructor (line 99). -/
def NullStorage.mkNoAssert : NullStorage := ⟨⟩

/-- Three-argument constructor (line 100): ignores all three arguments. -/
def NullStorage.mk3 (_size _rows _cols : Int) : NullStorage := ⟨⟩

/-- swap (line 101): empty body, both instances are unchanged. -/
def NullStorage.swap (s t : NullStorage) : NullStorage × NullStorage :=
  (s, t)

/-- rows() (line 102): the compile-time constant _Rows. -/
def NullStorage.rows (R : Int) (_s : NullStorage) : Int := R

/-- cols() (line 103): the compile-time constant _Cols. -/
def NullStorage.cols (C : Int) (_s : NullStorage) : Int := C

/-- resize (line 104): empty body, the state is unchanged. -/
def NullStorage.resize (s : NullStorage) (_size _rows _cols : Int) :
    NullStorage := s

/-- data() (lines 105-106): always the literal null pointer. -/
def NullStorage.data (_s : NullStorage) : Option Unit := none

/-- ei_matrix_storage of T, Size, Dynamic, Dynamic (MatrixStorage.h
lines 110-131): dynamic-size matrix with fixed-size inline storage, an
embedded ei_matrix_array plus two dynamic dimension fields. -/
structure CapDynDyn (α : Type) where
  m_data : List α
  m_rows : Int
  m_cols : Int
deriving DecidableEq

/-- Default constructor (line 116): zero dimensions. -/
def CapDynDyn.mkDefault {α : Type} (arr : List α) : CapDynDyn α :=
  ⟨arr, 0, 0⟩

/-- Skip-check constructor (lines 117-118): zero dimensions. -/
def CapDynDyn.mkNoAssert {α : Type} (arr : List α) : CapDynDyn α :=
  ⟨arr, 0, 0⟩

/-- Three-argument constructor (line 119): ignores the element count,
stores the requested dimensions. -/
def CapDynDyn.mk3 {α : Type} (arr : List α) (_size rows cols : Int) :
    CapDynDyn α := ⟨arr, rows, cols⟩

/-- swap (lines 120-121): exchanges the array contents and both
dimension fields. -/
def CapDynDyn.swap {α : Type} (s t : CapDynDyn α) :
    CapDynDyn α × CapDynDyn α :=
  (⟨t.m_data, t.m_rows, t.m_cols⟩, ⟨s.m_data, s.m_rows, s.m_cols⟩)

/-- rows() (line 122). -/
def CapDynDyn.rows {α : Type} (s : CapDynDyn α) : Int := s.m_rows

/-- cols() (line 123). -/
def CapDynDyn.cols {α : Type} (s : CapDynDyn α) : Int := s.m_cols

/-- resize (lines 124-128): ignores the element count, updates both
dimension fields, leaves the array untouched. -/
def CapDynDyn.resize {α : Type} (s : CapDynDyn α)
    (_size rows cols : Int) : CapDynDyn α :=
  ⟨s.m_data, rows, cols⟩

/-- data() (lines 129-130): the address of the embedded array, never
null. -/
def CapDynDyn.data {α : Type} (s : CapDynDyn α) : Option (List α) :=
  some s.m_data

/-- A sequence of resize calls, applied left to right. -/
def CapDynDyn.resizeList {α : Type} (s : CapDynDyn α)
    (l : List (Int × Int × Int)) : CapDynDyn α :=
  l.foldl (fun t p => t.resize p.1 p.2.1 p.2.2) s

/-- ei_matrix_storage of T, Size, Dynamic, _Cols (MatrixStorage.h lines
134-152): dynamic rows and fixed width with fixed-size inline storage. -/
structure CapDynRows (α : Type) where
  m_data : List α
  m_rows : Int
deriving DecidableEq

/-- Default constructor (line 139): zero rows. -/
def CapDynRows.mkDefault {α : Type} (arr : List α) : CapDynRows α :=
  ⟨arr, 0⟩

/-- Skip-check constructor (lines 140-141): zero rows. -/
def CapDynRows.mkNoAssert {α : Type} (arr : List α) : CapDynRows α :=
  ⟨arr, 0⟩

/-- Three-argument constructor (line 142): ignores the element count and
the cols argument, stores the row count. -/
def CapDynRows.mk3 {α : Type} (arr : List α) (_size rows _cols : Int) :
    CapDynRows α := ⟨arr, rows⟩

/-- swap (line 143): exchanges the array contents and the row field. -/
def CapDynRows.swap {α : Type} (s t : CapDynRows α) :
    CapDynRows α × CapDynRows α :=
  (⟨t.m_data, t.m_rows⟩, ⟨s.m_data, s.m_rows⟩)

/-- rows() (line 144). -/
def CapDynRows.rows {α : Type} (s : CapDynRows α) : Int := s.m_rows

/-- cols() (line 145): the compile-time constant _Cols. -/
def CapDynRows.cols {α : Type} (C : Int) (_s : CapDynRows α) : Int := C

/-- resize (lines 146-149): ignores the element count and the cols
argument, updates the row field, leaves the array untouched. -/
def CapDynRows.resize {α : Type} (s : CapDynRows α)
    (_size rows _cols : Int) : CapDynRows α :=
  ⟨s.m_data, rows⟩

/-- data() (lines 150-151): the address of the embedded array, never
null. -/
def CapDynRows.data {α : Type} (s : CapDynRows α) : Option (List α) :=
  some s.m_data

/-- A sequence of resize calls, applied left to right. -/
def CapDynRows.resizeList {α : Type} (s : CapDynRows α)
    (l : List (Int × Int × Int)) : CapDynRows α :=
  l.foldl (fun t p => t.resize p.1 p.2.1 p.2.2) s

/-- ei_matrix_storage of T, Size, _Rows, Dynamic (MatrixStorage.h lines
155-173): fixed height and dynamic cols with fixed-size inline storage. -/
structure CapDynCols (α : Type) where
  m_data : List α
  m_cols : Int
deriving DecidableEq

/-- Default constructor (line 160): zero cols. -/
def CapDynCols.mkDefault {α : Type} (arr : List α) : CapDynCols α :=
  ⟨arr, 0⟩

/-- Skip-check constructor (lines 161-162): zero cols. -/
def CapDynCols.mkNoAssert {α : Type} (arr : List α) : CapDynCols α :=
  ⟨arr, 0⟩

/-- Three-argument constructor (line 163): ignores the element count and
the rows argument, stores the column count. -/
def CapDynCols.mk3 {α : Type} (arr : List α) (_size _rows cols : Int) :
    CapDynCols α := ⟨arr, cols⟩

/-- swap (line 164): exchanges the array contents and the column field. -/
def CapDynCols.swap {α : Type} (s t : CapDynCols α) :
    CapDynCols α × CapDynCols α :=
  (⟨t.m_data, t.m_cols⟩, ⟨s.m_data, s.m_cols⟩)

/-- rows() (line 165): the compile-time constant _Rows. -/
def CapDynCols.rows {α : Type} (R : Int) (_s : CapDynCols α) : Int := R

/-- cols() (line 166). -/
def CapDynCols.cols {α : Type} (s : CapDynCols α) : Int := s.m_cols

/-- resize (lines 167-170): ignores the element count and the rows
argument, updates the column field, leaves the array untouched. -/
def CapDynCols.resize {α : Type} (s : CapDynCols α)
    (_size _rows cols : Int) : CapDynCols α :=
  ⟨s.m_data, cols⟩

/-- data() (lines 171-172): the address of the embedded array, never
null. -/
def CapDynCols.data {α : Type} (s : CapDynCols α) : Option (List α) :=
  some s.m_data

/-- A sequence of resize calls, applied left to right. -/
def CapDynCols.resizeList {α : Type} (s : CapDynCols α)
    (l : List (Int × Int × Int)) : CapDynCols α :=
  l.foldl (fun t p => t.resize p.1 p.2.1 p.2.2) s

/-- A sequence of resize calls, applied left to right. -/
def FixedStorage.resizeList {α : Type} (s : FixedStorage α)
    (l : List (Int × Int × Int)) : FixedStorage α :=
  l.foldl (fun t p => t.resize p.1 p.2.1 p.2.2) s

/-- Claim C1: for every heap-buffer storage variant, resize reallocates
exactly when the requested element count differs from the product of the
previously stored dimensions: when equal, the pointer is unchanged and no
deallocation happens; when different, the old buffer is released and the
pointer becomes null for a zero count or a fresh buffer of the requested
count otherwise (so it differs from any previously issued pointer); the
stored dynamic dimension fields are updated in every case. -/
theorem claim_C1_heap_resize_reallocation :
    (∀ (al : Bool) (s : HeapDynDyn) (a : AllocState) (size rows cols : Int),
      (HeapDynDyn.resize al s a size rows cols).1.m_rows = rows
      ∧ (HeapDynDyn.resize al s a size rows cols).1.m_cols = cols
      ∧ (size = s.m_rows * s.m_cols →
          (HeapDynDyn.resize al s a size rows cols).1.m_data = s.m_data
          ∧ (HeapDynDyn.resize al s a size rows cols).2.1 = a
          ∧ (HeapDynDyn.resize al s a size rows cols).2.2 = [])
      ∧ (size ≠ s.m_rows * s.m_cols →
          (HeapDynDyn.resize al s a size rows cols).2.2
              = [⟨s.m_data, s.m_rows * s.m_cols, al⟩]
          ∧ (size = 0 →
              (HeapDynDyn.resize al s a size rows cols).1.m_data = none)
          ∧ (size ≠ 0 →
              (HeapDynDyn.resize al s a size rows cols).1.m_data
                  = some ⟨a.nextId, size, al⟩
              ∧ ∀ b, s.m_data = some b → b.id < a.nextId →
                  (HeapDynDyn.resize al s a size rows cols).1.m_data
                      ≠ s.m_data)))
    ∧ (∀ (al : Bool) (R : Int) (s : HeapFixedRows) (a : AllocState)
        (size rows cols : Int),
      (HeapFixedRows.resize al R s a size rows cols).1.m_cols = cols
      ∧ (size = R * s.m_cols →
          (HeapFixedRows.resize al R s a size rows cols).1.m_data = s.m_data
          ∧ (HeapFixedRows.resize al R s a size rows cols).2.1 = a
          ∧ (HeapFixedRows.resize al R s a size rows cols).2.2 = [])
      ∧ (size ≠ R * s.m_cols →
          (HeapFixedRows.resize al R s a size rows cols).2.2
              = [⟨s.m_data, R * s.m_cols, al⟩]
          ∧ (size = 0 →
              (HeapFixedRows.resize al R s a size rows cols).1.m_data = none)
          ∧ (size ≠ 0 →
              (HeapFixedRows.resize al R s a size rows cols).1.m_data
                  = some ⟨a.nextId, size, al⟩
              ∧ ∀ b, s.m_data = some b → b.id < a.nextId →
                  (HeapFixedRows.resize al R s a size rows cols).1.m_data
                      ≠ s.m_data)))
    ∧ (∀ (al : Bool) (C : Int) (s : HeapFixedCols) (a : AllocState)
        (size rows cols : Int),
      (HeapFixedCols.resize al C s a size rows cols).1.m_rows = rows
      ∧ (size = s.m_rows * C →
          (HeapFixedCols.resize al C s a size rows cols).1.m_data = s.m_data
          ∧ (HeapFixedCols.resize al C s a size rows cols).2.1 = a
          ∧ (HeapFixedCols.resize al C s a size rows cols).2.2 = [])
      ∧ (size ≠ s.m_rows * C →
          (HeapFixedCols.resize al C s a size rows cols).2.2
              = [⟨s.m_data, C * s.m_rows, al⟩]
          ∧ (size = 0 →
              (HeapFixedCols.resize al C s a size rows cols).1.m_data = none)
          ∧ (size ≠ 0 →
              (HeapFixedCols.resize al C s a size rows cols).1.m_data
                  = some ⟨a.nextId, size, al⟩
              ∧ ∀ b, s.m_data = some b → b.id < a.nextId →
                  (HeapFixedCols.resize al C s a size rows cols).1.m_data
                      ≠ s.m_data))) := by
  refine ⟨?_, ?_, ?_⟩
  · intro al s a size rows cols
    rw [HeapDynDyn.resize]
    split_ifs with hc hz
    · exact ⟨rfl, rfl, fun he => absurd he hc, fun _ =>
        ⟨rfl, fun h0 => absurd h0 hz, fun _ => ⟨rfl, fun b hb hlt heq => by
          rw [hb] at heq
          have hbe : (⟨a.nextId, size, al⟩ : Buffer) = b := Option.some.inj heq
          rw [← hbe] at hlt
          exact absurd hlt (lt_irrefl _)⟩⟩⟩
    · push_neg at hz
      exact ⟨rfl, rfl, fun he => absurd he hc, fun _ =>
        ⟨rfl, fun _ => rfl, fun h0 => absurd hz h0⟩⟩
    · push_neg at hc
      exact ⟨rfl, rfl, fun _ => ⟨rfl, rfl, rfl⟩, fun hne => absurd hc hne⟩
  · intro al R s a size rows cols
    rw [HeapFixedRows.resize]
    split_ifs with hc hz
    · exact ⟨rfl, fun he => absurd he hc, fun _ =>
        ⟨rfl, fun h0 => absurd h0 hz, fun _ => ⟨rfl, fun b hb hlt heq => by
          rw [hb] at heq
          have hbe : (⟨a.nextId, size, al⟩ : Buffer) = b := Option.some.inj heq
          rw [← hbe] at hlt
          exact absurd hlt (lt_irrefl _)⟩⟩⟩
    · push_neg at hz
      exact ⟨rfl, fun he => absurd he hc, fun _ =>
        ⟨rfl, fun _ => rfl, fun h0 => absurd hz h0⟩⟩
    · push_neg at hc
      exact ⟨rfl, fun _ => ⟨rfl, rfl, rfl⟩, fun hne => absurd hc hne⟩
  · intro al C s a size rows cols
    rw [HeapFixedCols.resize]
    split_ifs with hc hz
    · exact ⟨rfl, fun he => absurd he hc, fun _ =>
        ⟨rfl, fun h0 => absurd h0 hz, fun _ => ⟨rfl, fun b hb hlt heq => by
          rw [hb] at heq
          have hbe : (⟨a.nextId, size, al⟩ : Buffer) = b := Option.some.inj heq
          rw [← hbe] at hlt
          exact absurd hlt (lt_irrefl _)⟩⟩⟩
    · push_neg at hz
      exact ⟨rfl, fun he => absurd he hc, fun _ =>
        ⟨rfl, fun _ => rfl, fun h0 => absurd hz h0⟩⟩
    · push_neg at hc
      exact ⟨rfl, fun _ => ⟨rfl, rfl, rfl⟩, fun hne => absurd hc hne⟩

/-- Claim C1 witness: on a concrete purely dynamic storage holding a
6-element buffer with dimensions 2 by 3, a resize to count 4 releases the
old buffer, and a resize keeping count 6 leaves the pointer unchanged. -/
theorem claim_C1_heap_resize_reallocation_witness :
    (HeapDynDyn.resize true ⟨some ⟨0, 6, true⟩, 2, 3⟩ ⟨1⟩ 4 4 1).2.2
        = [⟨some ⟨0, 6, true⟩, 6, true⟩]
    ∧ (HeapDynDyn.resize true ⟨some ⟨0, 6, true⟩, 2, 3⟩ ⟨1⟩ 6 3 2).1.m_data
        = some ⟨0, 6, true⟩ :=
  ⟨((claim_C1_heap_resize_reallocation.1 true ⟨some ⟨0, 6, true⟩, 2, 3⟩
      ⟨1⟩ 4 4 1).2.2.2 (by decide)).1,
   ((claim_C1_heap_resize_reallocation.1 true ⟨some ⟨0, 6, true⟩, 2, 3⟩
      ⟨1⟩ 6 3 2).2.2.1 (by decide)).1⟩

/-- Claim C2 counterexample: constructing the purely dynamic storage with
element count 6 but dimensions 2 by 2 yields a buffer allocated with 6
elements while rows times cols is 4, so rows times cols does not equal
the element count of the owned buffer. -/
theorem claim_C2_product_equals_count_cex :
    (HeapDynDyn.mk3 true 6 2 2 ⟨0⟩).1.m_data = some ⟨0, 6, true⟩
    ∧ (HeapDynDyn.mk3 true 6 2 2 ⟨0⟩).1.m_rows
        * (HeapDynDyn.mk3 true 6 2 2 ⟨0⟩).1.m_cols = 4
    ∧ (⟨0, 6, true⟩ : Buffer).count = 6
    ∧ (4 : Int) ≠ 6 := by
  decide

/-- Claim C2 (amended): for every heap-buffer storage variant, provided
every construction and resize call passes an element count equal to the
product of the requested dimensions, rows times cols equals the element
count the currently owned buffer was allocated with, and is zero when the
pointer is null. -/
theorem claim_C2_product_equals_count :
    (∀ (al : Bool) (s : HeapDynDyn), HeapDynDyn.Reach al false s →
      (∀ b, s.m_data = some b → b.count = s.m_rows * s.m_cols)
      ∧ (s.m_data = none → s.m_rows * s.m_cols = 0))
    ∧ (∀ (al : Bool) (R : Int) (s : HeapFixedRows),
        HeapFixedRows.Reach al false R s →
      (∀ b, s.m_data = some b → b.count = R * s.m_cols)
      ∧ (s.m_data = none → R * s.m_cols = 0))
    ∧ (∀ (al : Bool) (C : Int) (s : HeapFixedCols),
        HeapFixedCols.Reach al false C s →
      (∀ b, s.m_data = some b → b.count = s.m_rows * C)
      ∧ (s.m_data = none → s.m_rows * C = 0)) := by
  refine ⟨?_, ?_, ?_⟩
  · intro al s h
    exact ⟨fun b hb => ((HeapDynDyn.reach_inv_dyn_dyn h).1 b hb).1,
      (HeapDynDyn.reach_inv_dyn_dyn h).2.1⟩
  · intro al R s h
    exact ⟨fun b hb => ((HeapFixedRows.reach_inv_fixed_rows h).1 b hb).1,
      (HeapFixedRows.reach_inv_fixed_rows h).2.1⟩
  · intro al C s h
    exact ⟨fun b hb => ((HeapFixedCols.reach_inv_fixed_cols h).1 b hb).1,
      (HeapFixedCols.reach_inv_fixed_cols h).2.1⟩

/-- Claim C2 witness: on the purely dynamic storage constructed with
element count 6 and dimensions 2 by 3, the owned buffer's element count
equals rows times cols. -/
theorem claim_C2_product_equals_count_witness :
    (⟨0, 6, true⟩ : Buffer).count
        = (HeapDynDyn.mk3 true 6 2 3 ⟨0⟩).1.m_rows
            * (HeapDynDyn.mk3 true 6 2 3 ⟨0⟩).1.m_cols :=
  (claim_C2_product_equals_count.1 true (HeapDynDyn.mk3 true 6 2 3 ⟨0⟩).1
    (HeapDynDyn.Reach.mk3 6 2 3 ⟨0⟩ (by decide) (by decide))).1
    ⟨0, 6, true⟩ rfl

/-- Claim C3 counterexample: after constructing the purely dynamic
storage with (6, 2, 3) and calling resize(0, 5, 7) — an element count of
zero with nonzero requested dimensions — the pointer is null while rows
times cols is 35, so the pointer is not null exactly when the element
count is zero. -/
theorem claim_C3_null_iff_zero_cex :
    (HeapDynDyn.resize true (HeapDynDyn.mk3 true 6 2 3 ⟨0⟩).1 ⟨1⟩
        0 5 7).1.m_data = none
    ∧ (HeapDynDyn.resize true (HeapDynDyn.mk3 true 6 2 3 ⟨0⟩).1 ⟨1⟩
        0 5 7).1.m_rows
      * (HeapDynDyn.resize true (HeapDynDyn.mk3 true 6 2 3 ⟨0⟩).1 ⟨1⟩
        0 5 7).1.m_cols = 35
    ∧ ¬ ((HeapDynDyn.resize true (HeapDynDyn.mk3 true 6 2 3 ⟨0⟩).1 ⟨1⟩
        0 5 7).1.m_data = none
      ↔ (HeapDynDyn.resize true (HeapDynDyn.mk3 true 6 2 3 ⟨0⟩).1 ⟨1⟩
        0 5 7).1.m_rows
        * (HeapDynDyn.resize true (HeapDynDyn.mk3 true 6 2 3 ⟨0⟩).1 ⟨1⟩
        0 5 7).1.m_cols = 0) := by
  decide

/-- Claim C3 (amended): for every heap-buffer storage variant, the
pointer is null exactly when rows times cols is zero, at every point of
a lifetime in which every construction and resize call passes an element
count equal to the product of the requested dimensions and the
three-argument constructor is never invoked with a zero element count. -/
theorem claim_C3_null_iff_zero :
    (∀ (al : Bool) (s : HeapDynDyn), HeapDynDyn.Reach al true s →
      (s.m_data = none ↔ s.m_rows * s.m_cols = 0))
    ∧ (∀ (al : Bool) (R : Int) (s : HeapFixedRows),
        HeapFixedRows.Reach al true R s →
      (s.m_data = none ↔ R * s.m_cols = 0))
    ∧ (∀ (al : Bool) (C : Int) (s : HeapFixedCols),
        HeapFixedCols.Reach al true C s →
      (s.m_data = none ↔ s.m_rows * C = 0)) := by
  refine ⟨?_, ?_, ?_⟩
  · intro al s h
    exact ⟨(HeapDynDyn.reach_inv_dyn_dyn h).2.1, (HeapDynDyn.reach_inv_dyn_dyn h).2.2 rfl⟩
  · intro al R s h
    exact ⟨(HeapFixedRows.reach_inv_fixed_rows h).2.1,
      (HeapFixedRows.reach_inv_fixed_rows h).2.2 rfl⟩
  · intro al C s h
    exact ⟨(HeapFixedCols.reach_inv_fixed_cols h).2.1,
      (HeapFixedCols.reach_inv_fixed_cols h).2.2 rfl⟩

/-- Claim C3 witness: a default-constructed purely dynamic storage has
dimension product zero, so by the theorem its pointer is null. -/
theorem claim_C3_null_iff_zero_witness :
    (HeapDynDyn.mkDefault ⟨0⟩).1.m_data = none :=
  (claim_C3_null_iff_zero.1 true (HeapDynDyn.mkDefault ⟨0⟩).1
    (HeapDynDyn.Reach.mkDefault ⟨0⟩)).mpr (by decide)

/-- Any sequence of resize calls leaves the embedded array of the fully
dynamic-shape inline variant untouched. -/
lemma CapDynDyn.resizeList_m_data_dyn_dyn {α : Type} (l : List (Int × Int × Int)) :
    ∀ s : CapDynDyn α, (s.resizeList l).m_data = s.m_data := by
  induction l with
  | nil => intro s; rfl
  | cons p l ih => intro s; exact (ih _).trans rfl

/-- Any sequence of resize calls leaves the embedded array of the
dynamic-rows inline variant untouched. -/
lemma CapDynRows.resizeList_m_data_dyn_rows {α : Type} (l : List (Int × Int × Int)) :
    ∀ s : CapDynRows α, (s.resizeList l).m_data = s.m_data := by
  induction l with
  | nil => intro s; rfl
  | cons p l ih => intro s; exact (ih _).trans rfl

/-- Any sequence of resize calls leaves the embedded array of the
dynamic-cols inline variant untouched. -/
lemma CapDynCols.resizeList_m_data_dyn_cols {α : Type} (l : List (Int × Int × Int)) :
    ∀ s : CapDynCols α, (s.resizeList l).m_data = s.m_data := by
  induction l with
  | nil => intro s; rfl
  | cons p l ih => intro s; exact (ih _).trans rfl

/-- Any sequence of resize calls leaves the purely fixed-size variant
untouched. -/
lemma FixedStorage.resizeList_m_data_fixed {α : Type} (l : List (Int × Int × Int)) :
    ∀ s : FixedStorage α, (s.resizeList l).m_data = s.m_data := by
  induction l with
  | nil => intro s; rfl
  | cons p l ih => intro s; exact (ih _).trans rfl

/-- Claim C4: for every inline-buffer storage variant with positive
capacity, data() is non-null and its value is unchanged by any sequence
of resize calls; resize ignores the requested element count, never
touches the buffer, and only updates the stored dynamic dimension
fields. -/
theorem claim_C4_inline_resize_frame :
    (∀ (α : Type) (s : CapDynDyn α) (l : List (Int × Int × Int)),
      (0 < s.m_data.length → CapDynDyn.data s ≠ none)
      ∧ (s.resizeList l).m_data = s.m_data
      ∧ CapDynDyn.data (s.resizeList l) = CapDynDyn.data s
      ∧ (∀ size size2 rows cols,
          s.resize size rows cols = s.resize size2 rows cols)
      ∧ (∀ size rows cols,
          (s.resize size rows cols).m_data = s.m_data
          ∧ (s.resize size rows cols).m_rows = rows
          ∧ (s.resize size rows cols).m_cols = cols))
    ∧ (∀ (α : Type) (s : CapDynRows α) (l : List (Int × Int × Int)),
      (0 < s.m_data.length → CapDynRows.data s ≠ none)
      ∧ (s.resizeList l).m_data = s.m_data
      ∧ CapDynRows.data (s.resizeList l) = CapDynRows.data s
      ∧ (∀ size size2 rows cols,
          s.resize size rows cols = s.resize size2 rows cols)
      ∧ (∀ size rows cols,
          (s.resize size rows cols).m_data = s.m_data
          ∧ (s.resize size rows cols).m_rows = rows))
    ∧ (∀ (α : Type) (s : CapDynCols α) (l : List (Int × Int × Int)),
      (0 < s.m_data.length → CapDynCols.data s ≠ none)
      ∧ (s.resizeList l).m_data = s.m_data
      ∧ CapDynCols.data (s.resizeList l) = CapDynCols.data s
      ∧ (∀ size size2 rows cols,
          s.resize size rows cols = s.resize size2 rows cols)
      ∧ (∀ size rows cols,
          (s.resize size rows cols).m_data = s.m_data
          ∧ (s.resize size rows cols).m_cols = cols))
    ∧ (∀ (α : Type) (s : FixedStorage α) (l : List (Int × Int × Int)),
      (0 < s.m_data.length → FixedStorage.data s ≠ none)
      ∧ (s.resizeList l).m_data = s.m_data
      ∧ FixedStorage.data (s.resizeList l) = FixedStorage.data s
      ∧ (∀ size rows cols, s.resize size rows cols = s)) := by
  refine ⟨?_, ?_, ?_, ?_⟩
  · intro α s l
    refine ⟨fun _ => by simp [CapDynDyn.data], CapDynDyn.resizeList_m_data_dyn_dyn l s,
      ?_, fun _ _ _ _ => rfl, fun _ _ _ => ⟨rfl, rfl, rfl⟩⟩
    simp [CapDynDyn.data, CapDynDyn.resizeList_m_data_dyn_dyn l s]
  · intro α s l
    refine ⟨fun _ => by simp [CapDynRows.data],
      CapDynRows.resizeList_m_data_dyn_rows l s,
      ?_, fun _ _ _ _ => rfl, fun _ _ _ => ⟨rfl, rfl⟩⟩
    simp [CapDynRows.data, CapDynRows.resizeList_m_data_dyn_rows l s]
  · intro α s l
    refine ⟨fun _ => by simp [CapDynCols.data],
      CapDynCols.resizeList_m_data_dyn_cols l s,
      ?_, fun _ _ _ _ => rfl, fun _ _ _ => ⟨rfl, rfl⟩⟩
    simp [CapDynCols.data, CapDynCols.resizeList_m_data_dyn_cols l s]
  · intro α s l
    refine ⟨fun _ => by simp [FixedStorage.data],
      FixedStorage.resizeList_m_data_fixed l s,
      ?_, fun _ _ _ => rfl⟩
    simp [FixedStorage.data, FixedStorage.resizeList_m_data_fixed l s]

/-- Claim C4 witness: a concrete dynamic-shape inline storage with a
one-element buffer has non-null data, and a concrete sequence of two
resize calls leaves its buffer untouched. -/
theorem claim_C4_inline_resize_frame_witness :
    (CapDynDyn.data (⟨[true], 1, 1⟩ : CapDynDyn Bool) ≠ none)
    ∧ (CapDynDyn.resizeList (⟨[true], 1, 1⟩ : CapDynDyn Bool)
        [(4, 2, 2), (0, 0, 0)]).m_data
      = (⟨[true], 1, 1⟩ : CapDynDyn Bool).m_data :=
  ⟨(claim_C4_inline_resize_frame.1 Bool ⟨[true], 1, 1⟩
      [(4, 2, 2), (0, 0, 0)]).1 (by decide),
   (claim_C4_inline_resize_frame.1 Bool ⟨[true], 1, 1⟩
      [(4, 2, 2), (0, 0, 0)]).2.1⟩

/-- Claim C5: for every storage variant, swap exchanges the whole owned
state between the two instances (it is a no-op on the stateless null
variant), and applying swap twice restores both instances to their
original observable state. -/
theorem claim_C5_swap_involution :
    (∀ (α : Type) (s t : FixedStorage α),
      FixedStorage.swap (FixedStorage.swap s t).1 (FixedStorage.swap s t).2
          = (s, t)
      ∧ (FixedStorage.swap s t).1 = t ∧ (FixedStorage.swap s t).2 = s)
    ∧ (∀ s t : NullStorage,
      NullStorage.swap (NullStorage.swap s t).1 (NullStorage.swap s t).2
          = (s, t)
      ∧ NullStorage.swap s t = (s, t))
    ∧ (∀ (α : Type) (s t : CapDynDyn α),
      CapDynDyn.swap (CapDynDyn.swap s t).1 (CapDynDyn.swap s t).2 = (s, t)
      ∧ (CapDynDyn.swap s t).1 = t ∧ (CapDynDyn.swap s t).2 = s)
    ∧ (∀ (α : Type) (s t : CapDynRows α),
      CapDynRows.swap (CapDynRows.swap s t).1 (CapDynRows.swap s t).2
          = (s, t)
      ∧ (CapDynRows.swap s t).1 = t ∧ (CapDynRows.swap s t).2 = s)
    ∧ (∀ (α : Type) (s t : CapDynCols α),
      CapDynCols.swap (CapDynCols.swap s t).1 (CapDynCols.swap s t).2
          = (s, t)
      ∧ (CapDynCols.swap s t).1 = t ∧ (CapDynCols.swap s t).2 = s)
    ∧ (∀ s t : HeapDynDyn,
      HeapDynDyn.swap (HeapDynDyn.swap s t).1 (HeapDynDyn.swap s t).2
          = (s, t)
      ∧ (HeapDynDyn.swap s t).1 = t ∧ (HeapDynDyn.swap s t).2 = s)
    ∧ (∀ s t : HeapFixedRows,
      HeapFixedRows.swap (HeapFixedRows.swap s t).1
          (HeapFixedRows.swap s t).2 = (s, t)
      ∧ (HeapFixedRows.swap s t).1 = t ∧ (HeapFixedRows.swap s t).2 = s)
    ∧ (∀ s t : HeapFixedCols,
      HeapFixedCols.swap (HeapFixedCols.swap s t).1
          (HeapFixedCols.swap s t).2 = (s, t)
      ∧ (HeapFixedCols.swap s t).1 = t ∧ (HeapFixedCols.swap s t).2 = s) :=
  ⟨fun _ _ _ => ⟨rfl, rfl, rfl⟩,
   fun _ _ => ⟨rfl, rfl⟩,
   fun _ _ _ => ⟨rfl, rfl, rfl⟩,
   fun _ _ _ => ⟨rfl, rfl, rfl⟩,
   fun _ _ _ => ⟨rfl, rfl, rfl⟩,
   fun _ _ => ⟨rfl, rfl, rfl⟩,
   fun _ _ => ⟨rfl, rfl, rfl⟩,
   fun _ _ => ⟨rfl, rfl, rfl⟩⟩

/-- Claim C7 counterexample: destroying the purely dynamic storage
constructed with element count 6 but dimensions 2 by 2 passes 4 to the
deallocation primitive, while the buffer being freed was allocated with
6 elements. -/
theorem claim_C7_destructor_release_cex :
    HeapDynDyn.destruct true (HeapDynDyn.mk3 true 6 2 2 ⟨0⟩).1
        = [⟨some ⟨0, 6, true⟩, 4, true⟩]
    ∧ (⟨0, 6, true⟩ : Buffer).count = 6
    ∧ (4 : Int) ≠ 6 := by
  decide

/-- Claim C7 (amended): for every heap-buffer storage variant, the
destructor performs exactly one deallocation, of the owned pointer, with
the same allocation discipline used to acquire every buffer of the
storage, passing the stored dimension product; provided every
construction and resize call passed an element count equal to the product
of the requested dimensions, that product is exactly the element count
the buffer being freed was allocated with. -/
theorem claim_C7_destructor_release :
    (∀ (al : Bool) (s : HeapDynDyn), HeapDynDyn.Reach al false s →
      HeapDynDyn.destruct al s = [⟨s.m_data, s.m_rows * s.m_cols, al⟩]
      ∧ (∀ b, s.m_data = some b →
          b.count = s.m_rows * s.m_cols ∧ b.aligned = al))
    ∧ (∀ (al : Bool) (R : Int) (s : HeapFixedRows),
        HeapFixedRows.Reach al false R s →
      HeapFixedRows.destruct al R s = [⟨s.m_data, R * s.m_cols, al⟩]
      ∧ (∀ b, s.m_data = some b → b.count = R * s.m_cols ∧ b.aligned = al))
    ∧ (∀ (al : Bool) (C : Int) (s : HeapFixedCols),
        HeapFixedCols.Reach al false C s →
      HeapFixedCols.destruct al C s = [⟨s.m_data, C * s.m_rows, al⟩]
      ∧ (∀ b, s.m_data = some b →
          b.count = C * s.m_rows ∧ b.aligned = al)) := by
  refine ⟨?_, ?_, ?_⟩
  · intro al s h
    exact ⟨rfl, fun b hb => (HeapDynDyn.reach_inv_dyn_dyn h).1 b hb⟩
  · intro al R s h
    exact ⟨rfl, fun b hb => (HeapFixedRows.reach_inv_fixed_rows h).1 b hb⟩
  · intro al C s h
    refine ⟨rfl, fun b hb => ?_⟩
    rcases (HeapFixedCols.reach_inv_fixed_cols h).1 b hb with ⟨hcount, hal⟩
    exact ⟨by rw [hcount, mul_comm], hal⟩

/-- Claim C7 witness: destroying the purely dynamic storage constructed
with the consistent arguments (6, 2, 3) performs exactly one
deallocation of the owned pointer, passing the dimension product and the
aligned discipline. -/
theorem claim_C7_destructor_release_witness :
    HeapDynDyn.destruct true (HeapDynDyn.mk3 true 6 2 3 ⟨0⟩).1
        = [⟨(HeapDynDyn.mk3 true 6 2 3 ⟨0⟩).1.m_data,
            (HeapDynDyn.mk3 true 6 2 3 ⟨0⟩).1.m_rows
              * (HeapDynDyn.mk3 true 6 2 3 ⟨0⟩).1.m_cols, true⟩] :=
  (claim_C7_destructor_release.1 true (HeapDynDyn.mk3 true 6 2 3 ⟨0⟩).1
    (HeapDynDyn.Reach.mk3 6 2 3 ⟨0⟩ (by decide) (by decide))).1

/-- Claim C8: for the null storage variant, data() is always null,
rows() and cols() return the compile-time constants, and resize and swap
leave every instance unchanged whatever their arguments. -/
theorem claim_C8_null_variant :
    ∀ (R C size rows cols : Int) (s t : NullStorage),
      NullStorage.data s = none
      ∧ NullStorage.rows R s = R
      ∧ NullStorage.cols C s = C
      ∧ NullStorage.resize s size rows cols = s
      ∧ NullStorage.swap s t = (s, t)
      ∧ NullStorage.data (NullStorage.resize s size rows cols) = none
      ∧ NullStorage.rows R (NullStorage.resize s size rows cols) = R
      ∧ NullStorage.cols C (NullStorage.resize s size rows cols) = C :=
  fun _ _ _ _ _ _ _ => ⟨rfl, rfl, rfl, rfl, rfl, rfl, rfl, rfl⟩

/-- Claim C9: immediately after default construction of any storage
variant with at least one dynamic dimension, every stored dynamic
dimension field is zero, so rows() times cols() is zero; heap variants
moreover have a null pointer and leave the allocator untouched. -/
theorem claim_C9_default_construction :
    (∀ (α : Type) (arr : List α),
      (CapDynDyn.mkDefault arr).m_rows = 0
      ∧ (CapDynDyn.mkDefault arr).m_cols = 0
      ∧ CapDynDyn.rows (CapDynDyn.mkDefault arr)
          * CapDynDyn.cols (CapDynDyn.mkDefault arr) = 0
      ∧ (CapDynDyn.mkDefault arr).m_data = arr)
    ∧ (∀ (α : Type) (arr : List α) (C : Int),
      (CapDynRows.mkDefault arr).m_rows = 0
      ∧ CapDynRows.rows (CapDynRows.mkDefault arr)
          * CapDynRows.cols C (CapDynRows.mkDefault arr) = 0)
    ∧ (∀ (α : Type) (arr : List α) (R : Int),
      (CapDynCols.mkDefault arr).m_cols = 0
      ∧ CapDynCols.rows R (CapDynCols.mkDefault arr)
          * CapDynCols.cols (CapDynCols.mkDefault arr) = 0)
    ∧ (∀ a : AllocState,
      HeapDynDyn.mkDefault a = (⟨none, 0, 0⟩, a))
    ∧ (∀ (a : AllocState) (R : Int),
      HeapFixedRows.mkDefault a = (⟨none, 0⟩, a)
      ∧ HeapFixedRows.rows R (HeapFixedRows.mkDefault a).1
          * HeapFixedRows.cols (HeapFixedRows.mkDefault a).1 = 0)
    ∧ (∀ (a : AllocState) (C : Int),
      HeapFixedCols.mkDefault a = (⟨none, 0⟩, a)
      ∧ HeapFixedCols.rows (HeapFixedCols.mkDefault a).1
          * HeapFixedCols.cols C (HeapFixedCols.mkDefault a).1 = 0) := by
  refine ⟨?_, ?_, ?_, fun a => rfl, ?_, ?_⟩
  · intro α arr
    exact ⟨rfl, rfl, by simp [CapDynDyn.mkDefault, CapDynDyn.rows,
      CapDynDyn.cols], rfl⟩
  · intro α arr C
    exact ⟨rfl, by simp [CapDynRows.mkDefault, CapDynRows.rows,
      CapDynRows.cols]⟩
  · intro α arr R
    exact ⟨rfl, by simp [CapDynCols.mkDefault, CapDynCols.rows,
      CapDynCols.cols]⟩
  · intro a R
    exact ⟨rfl, by simp [HeapFixedRows.mkDefault, HeapFixedRows.rows,
      HeapFixedRows.cols]⟩
  · intro a C
    exact ⟨rfl, by simp [HeapFixedCols.mkDefault, HeapFixedCols.rows,
      HeapFixedCols.cols]⟩

/-- Claim C10: for every heap-buffer storage variant, the skip-check
constructor takes no element count or dimensions, performs no allocation,
and produces an object identical to a default-constructed one: null
pointer and zero dynamic dimension fields. -/
theorem claim_C10_skip_check_constructor :
    (∀ a : AllocState,
      HeapDynDyn.mkNoAssert a = HeapDynDyn.mkDefault a
      ∧ (HeapDynDyn.mkNoAssert a).1.m_data = none
      ∧ (HeapDynDyn.mkNoAssert a).1.m_rows = 0
      ∧ (HeapDynDyn.mkNoAssert a).1.m_cols = 0
      ∧ (HeapDynDyn.mkNoAssert a).2 = a)
    ∧ (∀ a : AllocState,
      HeapFixedRows.mkNoAssert a = HeapFixedRows.mkDefault a
      ∧ (HeapFixedRows.mkNoAssert a).1.m_data = none
      ∧ (HeapFixedRows.mkNoAssert a).1.m_cols = 0
      ∧ (HeapFixedRows.mkNoAssert a).2 = a)
    ∧ (∀ a : AllocState,
      HeapFixedCols.mkNoAssert a = HeapFixedCols.mkDefault a
      ∧ (HeapFixedCols.mkNoAssert a).1.m_data = none
      ∧ (HeapFixedCols.mkNoAssert a).1.m_rows = 0
      ∧ (HeapFixedCols.mkNoAssert a).2 = a) :=
  ⟨fun _ => ⟨rfl, rfl, rfl, rfl, rfl⟩,
   fun _ => ⟨rfl, rfl, rfl, rfl⟩,
   fun _ => ⟨rfl, rfl, rfl, rfl⟩⟩
